import Mathlib

/-!
Shallow embedding of `hospitals_data_processor.py`.

The script downloads CMS hospital metadata, filters datasets carrying the
"Hospitals" theme that were modified after the last recorded run, downloads
each dataset's CSV, snake-cases the header row, writes the file, and appends
one line to a run ledger (`run_log.txt`).

Modelling conventions, stated once here:

* Python `datetime` values are modelled by `Timestamp`: `wall` is the
  wall-clock reading in microseconds counted from `datetime.min`
  (`0001-01-01T00:00:00`), and `offset` is `some o` for an aware datetime
  with UTC offset `o` microseconds, `none` for a naive datetime.
  `datetime.min.replace(tzinfo=UTC)` is therefore `⟨0, some 0⟩`.
* `datetime.fromisoformat` / `datetime.isoformat` are a parse/print pair that
  Python guarantees to round-trip.  We model the string space they act on by
  `PyStr`: `PyStr.iso t` stands for the (unique) `isoformat` rendering of the
  datetime `t`, and `PyStr.other s` stands for a string that is not a valid
  ISO-8601 datetime, so that parsing it raises `ValueError`.
* Raising an exception is modelled by `Except Unit`.
* The run-ledger file is modelled at the line/field level: a file is
  `Option (List RawLine)` (`none` = the file does not exist) and a `RawLine`
  is the list of fields obtained by splitting the stripped physical line on
  the fixed delimiter `" | "`.  An `update_run_log` append writes the text
  `f"{ts} | {message} | {command}\n"`, so a newline character inside the
  message fragments the record into several physical lines; the model
  computes that fragmentation (`appendRecordLines`), splitting the message
  on `"\n"`, `"\r\n"` and `"\r"` exactly as the text-mode read of the file
  does.  Message fragments and the command are modelled as single non-ISO
  fields: a fragment that itself contains `" | "` would split further in
  the real file, but its field 0 — all any claim reads — is unaffected, and
  the command is argparse-gated (any unknown argument ends the process
  before a run), so a completed run's command is a single benign token.
* CSV payload bytes, `str.splitlines`, `csv.reader` and `csv.writer`
  (default dialect, fields without embedded newlines) are modelled
  concretely over Lean `String`s.
* `inflection.underscore` is an external pure header-normalization function;
  it is a parameter `normalize : String → String` of the pipeline, exactly as
  the spec's §1 treats it.
-/

set_option autoImplicit false

/-- A Python `datetime`: wall-clock microseconds since `datetime.min`, plus
`some offset` (microseconds) when timezone-aware, `none` when naive. -/
structure Timestamp where
  wall : Int
  offset : Option Int
  deriving DecidableEq, Repr

/-- The instant an aware datetime denotes (wall-clock minus UTC offset);
for a naive datetime this is just its wall-clock reading. -/
def Timestamp.instant (t : Timestamp) : Int :=
  t.wall - t.offset.getD 0

/-- `t.replace(tzinfo=UTC)`: keep the wall-clock fields, overwrite the zone. -/
def Timestamp.replaceUTC (t : Timestamp) : Timestamp :=
  ⟨t.wall, some 0⟩

/-- `datetime.min.replace(tzinfo=UTC)`, the script's epoch-floor sentinel. -/
def epochFloor : Timestamp := ⟨0, some 0⟩

/-- Python comparison `a > b` on datetimes: aware pairs compare by instant,
naive pairs by wall clock, and mixing aware with naive raises `TypeError`. -/
def pyGt (a b : Timestamp) : Except Unit Bool :=
  match a.offset, b.offset with
  | some oa, some ob => .ok (decide (a.wall - oa > b.wall - ob))
  | none, none => .ok (decide (a.wall > b.wall))
  | _, _ => .error ()

/-- A Python string as seen by `datetime.fromisoformat`: either the
`isoformat` rendering of a datetime, or a string that fails to parse. -/
inductive PyStr where
  | iso (t : Timestamp)
  | other (s : String)
  deriving DecidableEq, Repr

/-- `datetime.fromisoformat`: succeeds exactly on ISO renderings. -/
def fromisoformat : PyStr → Except Unit Timestamp
  | .iso t => .ok t
  | .other _ => .error ()

/-- Whether `s.strip()` is empty, i.e. `s` is all whitespace (an ISO
rendering never is). -/
def PyStr.isBlank : PyStr → Bool
  | .iso _ => false
  | .other s => s.data.all Char.isWhitespace

/-- One physical ledger line, represented by its `" | "`-split fields. -/
abbrev RawLine := List PyStr

/-- A stripped line is blank iff it had a single whitespace-only field
(a line containing the delimiter `" | "` is never blank). -/
def lineIsBlank : RawLine → Bool
  | [] => true
  | [f] => f.isBlank
  | _ => false

/-- The ledger file: `none` when `run_log.txt` does not exist. -/
abbrev RunLog := Option (List RawLine)

/-- Lines of the ledger file, empty when the file does not exist. -/
def ledgerLines : RunLog → List RawLine
  | none => []
  | some ls => ls

/-- Embedding of `get_last_run_time()`: epoch floor when the file is missing
or has no non-blank line; otherwise split the last non-blank line on
`" | "` and parse field 0, falling back to the epoch floor on failure
(the `head? = none` branch is the caught `IndexError`). -/
def get_last_run_time (ledger : RunLog) : Timestamp :=
  match ledger with
  | none => epochFloor
  | some fileLines =>
    let lines := fileLines.filter fun l => !(lineIsBlank l)
    match lines.getLast? with
    | none => epochFloor
    | some lastLine =>
      match lastLine.head? with
      | none => epochFloor
      | some f =>
        match fromisoformat f with
        | .ok t => t
        | .error _ => epochFloor

/-- `"python " + " ".join(sys.argv)`. -/
def pyCommand (argv : List String) : String :=
  "python " ++ String.intercalate " " argv

/-- Whether the character stream contains the ledger delimiter `" | "`. -/
def hasDelimAux : List Char → Bool
  | ' ' :: '|' :: ' ' :: _ => true
  | _ :: rest => hasDelimAux rest
  | [] => false

/-- Whether a string contains the ledger delimiter `" | "`. -/
def containsRunDelim (s : String) : Bool :=
  hasDelimAux s.data

/-- The single ledger line `update_run_log` writes for timestamp `now`,
message `message` and argument vector `argv`, when the message contains no
newline (the case of both messages `main` ever writes). -/
def logLine (now : Timestamp) (message : String) (argv : List String) : RawLine :=
  [PyStr.iso now, PyStr.other message, PyStr.other (pyCommand argv)]

/-- Split a character stream at `"\r\n"`, `"\r"` and `"\n"` (the separators
a text-mode read recognizes), KEEPING a trailing empty piece, so the result
is the list of fragments a newline-bearing message contributes to distinct
physical lines.  Always returns a nonempty list. -/
def splitLinesKeepAux (cs : List Char) (acc : List Char) (skipLF : Bool) :
    List String :=
  match cs with
  | [] => [String.mk acc.reverse]
  | c :: rest =>
    if skipLF ∧ c = '\n' then splitLinesKeepAux rest acc false
    else if c = '\r' then String.mk acc.reverse :: splitLinesKeepAux rest [] true
    else if c = '\n' then String.mk acc.reverse :: splitLinesKeepAux rest [] false
    else splitLinesKeepAux rest (c :: acc) false

/-- The fragments of a message across physical lines of the ledger file. -/
def splitNlMsg (s : String) : List String :=
  splitLinesKeepAux s.data [] false

/-- Whether a string contains a line separator (`'\n'` or `'\r'`). -/
def containsNlChar (s : String) : Bool :=
  s.data.any fun c => c = '\n' || c = '\r'

/-- The physical lines one `f.write(f"{ts} | {message} | {command}\n")`
puts into the ledger file, as field lists: the first message fragment shares
its line with the timestamp, the last one with the command, and every
middle fragment is a bare line of its own.  A newline-free message yields
the single line `logLine`. -/
def appendRecordLines (now : Timestamp) (message cmd : String) : List RawLine :=
  match splitNlMsg message with
  | [] => [[PyStr.iso now, PyStr.other "", PyStr.other cmd]]
  | [m] => [[PyStr.iso now, PyStr.other m, PyStr.other cmd]]
  | m :: ms =>
    ([PyStr.iso now, PyStr.other m] :: ms.dropLast.map fun f => [PyStr.other f])
      ++ [[PyStr.other (ms.getLastD ""), PyStr.other cmd]]

/-- Embedding of `update_run_log(message)`: append the text
`f"{timestamp} | {message} | {command}\n"` to the ledger, creating the file
when absent (`open(RUN_LOG, "a")`).  `now` stands for `datetime.now(UTC)`.
The appended text spans several physical lines when the message contains a
newline. -/
def update_run_log (ledger : RunLog) (now : Timestamp) (message : String)
    (argv : List String) : RunLog :=
  some (ledgerLines ledger ++ appendRecordLines now message (pyCommand argv))

/-- One `distribution` element of a catalog entry. -/
structure PyDistribution where
  downloadURL : String
  deriving DecidableEq, Repr

/-- One catalog entry (`dataset`): `theme` is `dataset.get("theme", [])`,
`modified` is the raw `dataset["modified"]` string, `distribution` the list
under `dataset["distribution"]`. -/
structure Dataset where
  theme : List String
  modified : PyStr
  distribution : List PyDistribution
  deriving DecidableEq, Repr

/-- Embedding of the selection comprehension in `main` (lines 150-154):
keep `dataset` iff `theme ∈ dataset.get("theme", [])` and
`datetime.fromisoformat(dataset["modified"]).replace(tzinfo=UTC) > last_run`;
a parse failure on a themed entry raises `ValueError` and aborts the whole
comprehension, and comparing against a naive `last_run` raises `TypeError`.
Entries are examined in list order, as the comprehension does. -/
def selectDatasets (theme : String) (data : List Dataset) (lastRun : Timestamp) :
    Except Unit (List Dataset) :=
  match data with
  | [] => .ok []
  | d :: rest =>
    let keepE : Except Unit Bool :=
      if theme ∈ d.theme then
        match fromisoformat d.modified with
        | .error e => .error e
        | .ok m => pyGt m.replaceUTC lastRun
      else .ok false
    match keepE with
    | .error e => .error e
    | .ok keep =>
      match selectDatasets theme rest lastRun with
      | .error e => .error e
      | .ok tail => .ok (if keep then d :: tail else tail)

/-- The cutoff `main` uses (line 146): epoch floor under `--force-refresh`,
otherwise `get_last_run_time()`. -/
def computeCutoff (forceRefresh : Bool) (ledger : RunLog) : Timestamp :=
  if forceRefresh then epochFloor else get_last_run_time ledger

/-- A JSON value in the shapes `load_hospital_data` distinguishes: a bare
list of entries, an object carrying a `"dataset"` key (whose value is an
arbitrary JSON value, returned unchecked), or anything else. -/
inductive JVal where
  | arr (xs : List Dataset)
  | dictDataset (v : JVal)
  | other
  deriving DecidableEq, Repr

/-- Outcome of the metadata GET: a parsed JSON body, an HTTP error status
(`raise_for_status`), a network failure (`RequestException`), or a body that
fails JSON decoding. -/
inductive NetResult where
  | ok (v : JVal)
  | httpError
  | netFail
  | badJson
  deriving DecidableEq, Repr

/-- Embedding of `load_hospital_data()`: return the list body, or the value
under `"dataset"`, else fall back to reading `CMS_BU_DATA.json`
(`fallbackFile`, `.error ()` = missing/unreadable), and finally `[]` when the
fallback also fails.  The fallback content is returned without any shape
check, exactly as `json.load` is. -/
def load_hospital_data (net : NetResult) (fallbackFile : Except Unit JVal) : JVal :=
  let fallback : JVal :=
    match fallbackFile with
    | .ok v => v
    | .error _ => JVal.arr []
  match net with
  | .ok (.arr xs) => .arr xs
  | .ok (.dictDataset v) => v
  | .ok .other => fallback
  | .httpError => fallback
  | .netFail => fallback
  | .badJson => fallback

/-- `str.splitlines` restricted to the separators the payloads use:
splits on `"\r\n"`, `"\r"` and `"\n"`, with no trailing empty line. -/
def splitlinesAux (cs : List Char) (acc : List Char) (skipLF : Bool) :
    List (List Char) :=
  match cs with
  | [] => if acc.isEmpty then [] else [acc.reverse]
  | c :: rest =>
    if skipLF ∧ c = '\n' then splitlinesAux rest acc false
    else if c = '\r' then acc.reverse :: splitlinesAux rest [] true
    else if c = '\n' then acc.reverse :: splitlinesAux rest [] false
    else splitlinesAux rest (c :: acc) false

/-- `content.splitlines()` on a decoded payload. -/
def pySplitlines (s : String) : List String :=
  (splitlinesAux s.data [] false).map fun cs => ⟨cs⟩

/-- Field scanner of one `csv.reader` line (default dialect, `strict=False`,
fields without embedded newlines), following the states of CPython's
`_csv.c`.  `mode`: 0 = at field start (START_FIELD), 1 = in an unquoted
field (IN_FIELD), 2 = inside quotes (IN_QUOTED_FIELD), 3 = just after a
quote character inside a quoted field (QUOTE_IN_QUOTED_FIELD: a second
quote is a literal `"`, a delimiter ends the field, and any other character
is appended, non-strict). -/
def parseLineAux (cs : List Char) (field : List Char) (mode : Nat)
    (acc : List (List Char)) : List (List Char) :=
  match cs with
  | [] => (field.reverse :: acc).reverse
  | c :: rest =>
    match mode with
    | 0 =>
      if c = '"' then parseLineAux rest field 2 acc
      else if c = ',' then parseLineAux rest [] 0 (field.reverse :: acc)
      else parseLineAux rest (c :: field) 1 acc
    | 1 =>
      if c = ',' then parseLineAux rest [] 0 (field.reverse :: acc)
      else parseLineAux rest (c :: field) 1 acc
    | 2 =>
      if c = '"' then parseLineAux rest field 3 acc
      else parseLineAux rest (c :: field) 2 acc
    | _ =>
      if c = '"' then parseLineAux rest ('"' :: field) 2 acc
      else if c = ',' then parseLineAux rest [] 0 (field.reverse :: acc)
      else parseLineAux rest (c :: field) 1 acc

/-- One row of `csv.reader`: a blank line yields the empty row `[]`. -/
def parseCsvLine (s : String) : List String :=
  if s.data.isEmpty then [] else (parseLineAux s.data [] 0 []).map fun cs => ⟨cs⟩

/-- `list(csv.reader(decoded_lines))`. -/
def csvParse (content : String) : List (List String) :=
  (pySplitlines content).map parseCsvLine

/-- QUOTE_MINIMAL: a field is quoted iff it contains the delimiter, the
quote character, or a CR/LF. -/
def needsQuoting (f : String) : Bool :=
  f.data.any fun c => c = ',' || c = '"' || c = '\r' || c = '\n'

/-- Render one field as `csv.writer` does, doubling embedded quotes. -/
def escapeField (f : String) : String :=
  if needsQuoting f then
    "\"" ++ String.mk (f.data.foldr
      (fun c acc => if c = '"' then '"' :: '"' :: acc else c :: acc) []) ++ "\""
  else f

/-- Render one row as `csv.writer` does (a lone empty field is quoted so the
line is not empty, as CPython's `_csv.c` does). -/
def serializeRow (row : List String) : String :=
  if row = [""] then "\"\""
  else String.intercalate "," (row.map escapeField)

/-- `writer.writerows(rows)` into a `newline=""` file: each row followed by
the default `"\r\n"` terminator. -/
def csvSerialize (rows : List (List String)) : String :=
  String.join (rows.map fun r => serializeRow r ++ "\r\n")

/-- Outcome of `requests.get(url)` on a download URL: a decoded UTF-8 body,
or any `RequestException` / non-2xx status. -/
inductive DownloadResult where
  | ok (content : String)
  | fail
  deriving DecidableEq, Repr

/-- `url.split("/")`, split on every slash, keeping empty pieces. -/
def splitSlashAux : List Char → List Char → List String
  | [], acc => [String.mk acc.reverse]
  | '/' :: rest, acc => String.mk acc.reverse :: splitSlashAux rest []
  | c :: rest, acc => splitSlashAux rest (c :: acc)

/-- `url.split("/")[-1]`. -/
def filenameOf (url : String) : String :=
  (splitSlashAux url.data []).getLastD ""

/-- `s.strip()`: drop leading and trailing whitespace. -/
def pyStrip (s : String) : String :=
  String.mk
    (((s.data.dropWhile Char.isWhitespace).reverse.dropWhile
        Char.isWhitespace).reverse)

/-- Embedding of `download_and_process(dataset)` as the file write it
performs: `some (filename, bytes)` when it reaches the write, `none` when the
entry is skipped.  `none` covers: a missing `distribution[0]` (the raised
`IndexError`/`KeyError` is stored in the worker's never-consumed future), an
unparsable `modified` (the unused `modified_date = fromisoformat(...)` on
line 64 raises likewise), a caught download failure, and an empty row list.
`http` is the download collaborator, `normalize` is `inflection.underscore`. -/
def download_and_process (http : String → DownloadResult)
    (normalize : String → String) (dataset : Dataset) :
    Option (String × String) :=
  match dataset.distribution.head? with
  | none => none
  | some dist =>
    match fromisoformat dataset.modified with
    | .error _ => none
    | .ok _ =>
      match http dist.downloadURL with
      | .fail => none
      | .ok content =>
        match csvParse content with
        | [] => none
        | row0 :: rest =>
          let headers := row0.map fun col => normalize (pyStrip col)
          some (filenameOf dist.downloadURL, csvSerialize (headers :: rest))

/-- The outcome of one run: the writes the worker pool performed (in
selection order; the pool joins before the ledger append) and the ledger
after the final `update_run_log`. -/
structure RunResult where
  writes : List (String × String)
  ledger : RunLog
  deriving DecidableEq, Repr

/-- Embedding of `main()` (named `mainRun` here) from the catalog on: compute the cutoff, run the
selection comprehension (whose uncaught `ValueError`/`TypeError` aborts the
run before any append), then either log "Nothing to update" or process every
selected entry and log the attempted count.  `now` stands for
`datetime.now(UTC)` at the append, `argv` for `sys.argv`, and `data` for the
entry list obtained from `load_hospital_data()`. -/
def mainRun (forceRefresh : Bool) (argv : List String) (now : Timestamp)
    (http : String → DownloadResult) (normalize : String → String)
    (ledger : RunLog) (data : List Dataset) : Except Unit RunResult :=
  let lastRun := computeCutoff forceRefresh ledger
  match selectDatasets "Hospitals" data lastRun with
  | .error e => .error e
  | .ok hospital_datasets =>
    if hospital_datasets.isEmpty then
      .ok ⟨[], update_run_log ledger now "Nothing to update" argv⟩
    else
      .ok ⟨hospital_datasets.filterMap (download_and_process http normalize),
           update_run_log ledger now
             ("Downloaded " ++ toString hospital_datasets.length ++ " file(s)") argv⟩

/-- The environment of one process invocation. -/
structure RunInput where
  force : Bool
  argv : List String
  now : Timestamp
  http : String → DownloadResult
  normalize : String → String
  data : List Dataset

/-- Iterated runs of the script over one ledger file, stopping at the first
run that dies on an uncaught exception. -/
def runAll (ledger : RunLog) : List RunInput → Except Unit RunLog
  | [] => .ok ledger
  | r :: rest =>
    match mainRun r.force r.argv r.now r.http r.normalize ledger r.data with
    | .error e => .error e
    | .ok res => runAll res.ledger rest

/-- First field of a ledger line (the timestamp slot). -/
def firstField (l : RawLine) : PyStr :=
  l.headD (PyStr.other "")

/-- The spec's selection predicate, written from the spec's words:
"`theme` is a member of `entry.themes` AND `entry.modifiedAt` (normalized to
UTC) is strictly greater than `cutoff`", where normalizing to UTC keeps the
instant (§3's `modifiedAt` is "timezone-aware").  Stated on instants. -/
def specSelects (theme : String) (cutoff : Timestamp) (e : Dataset) : Bool :=
  match fromisoformat e.modified with
  | .ok m => decide (theme ∈ e.theme) && decide (m.instant > cutoff.instant)
  | .error _ => false

/-- The boolean the selection comprehension actually tests for an entry it
does not raise on: themed, parseable, and `replace(tzinfo=UTC)`-greater
than the cutoff. -/
def codeKeeps (theme : String) (cutoff : Timestamp) (e : Dataset) : Bool :=
  decide (theme ∈ e.theme) &&
    (match fromisoformat e.modified with
     | .ok m =>
       match pyGt m.replaceUTC cutoff with
       | .ok b => b
       | .error _ => false
     | .error _ => false)

lemma selectDatasets_ok_filter (theme : String) (cutoff : Timestamp) :
    ∀ (data sel : List Dataset), selectDatasets theme data cutoff = .ok sel →
      sel = data.filter (codeKeeps theme cutoff) := by
  intro data
  induction data with
  | nil =>
    intro sel h
    simp only [selectDatasets] at h
    cases h
    rfl
  | cons d rest ih =>
    intro sel h
    simp only [selectDatasets] at h
    by_cases hth : theme ∈ d.theme
    · rw [if_pos hth] at h
      cases hm : fromisoformat d.modified with
      | error u => rw [hm] at h; cases h
      | ok m =>
        rw [hm] at h
        dsimp only at h
        cases hg : pyGt m.replaceUTC cutoff with
        | error u => rw [hg] at h; cases h
        | ok keep =>
          rw [hg] at h
          dsimp only at h
          cases hrec : selectDatasets theme rest cutoff with
          | error u => rw [hrec] at h; cases h
          | ok tail =>
            rw [hrec] at h
            dsimp only at h
            cases h
            have hkeep : codeKeeps theme cutoff d = keep := by
              simp [codeKeeps, hth, hm, hg]
            cases keep with
            | true => simp [List.filter_cons, hkeep, ih tail hrec]
            | false => simp [List.filter_cons, hkeep, ih tail hrec]
    · rw [if_neg hth] at h
      dsimp only at h
      cases hrec : selectDatasets theme rest cutoff with
      | error u => rw [hrec] at h; cases h
      | ok tail =>
        rw [hrec] at h
        dsimp only at h
        cases h
        have hkeep : codeKeeps theme cutoff d = false := by
          simp [codeKeeps, hth]
        simp [List.filter_cons, hkeep, ih tail hrec]

/-- Catalog entry whose `modified` string is not ISO-8601. -/
def badEntry : Dataset := ⟨["Hospitals"], PyStr.other "not-a-date", []⟩

/-- Catalog entry modified at `0001-01-01T01:00:00+00:00` (one hour past the
floor), selectable against the epoch-floor cutoff. -/
def goodEntry : Dataset := ⟨["Hospitals"], PyStr.iso ⟨3600000000, some 0⟩, []⟩

/-- C1: the claim says a single unparsable `modifiedAt` excludes only that
entry and the remaining selectable entries are still returned.  The code's
comprehension calls `datetime.fromisoformat` unguarded, so the first themed
entry with a bad timestamp raises `ValueError` and aborts the whole
selection: on the catalog `[badEntry, goodEntry]` selection raises even
though `goodEntry` alone is selectable. -/
theorem selection_aborts_on_single_bad_timestamp :
    selectDatasets "Hospitals" [badEntry, goodEntry] epochFloor = .error () ∧
    selectDatasets "Hospitals" [goodEntry] epochFloor = .ok [goodEntry] := by
  constructor <;> rfl

/-- Entry rendered as `0001-01-01T10:00:00+05:00`: wall clock ten hours past
the floor, UTC offset `+05:00`, so its instant is five hours past the
floor. -/
def offsetEntry : Dataset :=
  ⟨["Hospitals"], PyStr.iso ⟨36000000000, some 18000000000⟩, []⟩

/-- Cutoff `0001-01-01T09:00:00+00:00`. -/
def nineOClock : Timestamp := ⟨32400000000, some 0⟩

/-- C2 (counterexample): the code compares after `replace(tzinfo=UTC)`,
which keeps the wall clock and so moves the instant of a `+05:00` timestamp.
`offsetEntry`'s instant (05:00 UTC) is before the 09:00 UTC cutoff, so under
the claim's same-instant normalization it must not be selected; the code
selects it (wall clock 10:00 > 09:00). -/
theorem selectDatasets_replace_tz_counterexample :
    selectDatasets "Hospitals" [offsetEntry] nineOClock = .ok [offsetEntry] ∧
    specSelects "Hospitals" nineOClock offsetEntry = false := by
  constructor <;> rfl

/-- C2 (amended): selection is deterministic, and on any catalog whose
themed entries all parse and any timezone-aware cutoff it selects exactly
the entries whose theme matches and whose `modifiedAt` *wall clock* (the
result of `replace(tzinfo=UTC)`, not a same-instant conversion) is strictly
greater than the cutoff's instant. -/
theorem selectDatasets_eq_filter_wallclock (theme : String) (data : List Dataset)
    (cutoff : Timestamp) (c : Int) (hc : cutoff.offset = some c)
    (hp : ∀ e ∈ data, theme ∈ e.theme → ∃ m, fromisoformat e.modified = .ok m) :
    selectDatasets theme data cutoff =
      .ok (data.filter fun e =>
        decide (theme ∈ e.theme) &&
          (match fromisoformat e.modified with
           | .ok m => decide (m.wall > cutoff.wall - c)
           | .error _ => false)) := by
  induction data with
  | nil => rfl
  | cons d rest ih =>
    have ihr := ih fun e he hth => hp e (List.mem_cons_of_mem _ he) hth
    by_cases hth : theme ∈ d.theme
    · obtain ⟨m, hm⟩ := hp d (List.mem_cons_self _ _) hth
      simp only [selectDatasets, if_pos hth, hm, pyGt, Timestamp.replaceUTC, hc, ihr,
        List.filter_cons]
      simp [hth, hm, sub_zero]
    · simp only [selectDatasets, if_neg hth, ihr, List.filter_cons]
      simp [hth]

/-- C2 (witness): the amended characterization applied to the concrete
catalog `[goodEntry]` with the epoch-floor cutoff. -/
theorem selectDatasets_eq_filter_wallclock_witness :
    selectDatasets "Hospitals" [goodEntry] epochFloor =
      .ok ([goodEntry].filter fun e =>
        decide ("Hospitals" ∈ e.theme) &&
          (match fromisoformat e.modified with
           | .ok m => decide (m.wall > epochFloor.wall - 0)
           | .error _ => false)) :=
  selectDatasets_eq_filter_wallclock "Hospitals" [goodEntry] epochFloor 0 rfl
    (by
      intro e he _
      rw [List.mem_singleton] at he
      subst he
      exact ⟨⟨3600000000, some 0⟩, rfl⟩)

/-- Catalog entry rendered as `0001-01-01T00:00:00`, i.e. `datetime.min`:
its wall clock equals the epoch floor's. -/
def floorEntry : Dataset := ⟨["Hospitals"], PyStr.iso ⟨0, none⟩, []⟩

/-- C4 (counterexample): under `--force-refresh` the cutoff is the epoch
floor, yet a themed entry whose parseable `modifiedAt` equals `datetime.min`
is NOT selected, because the comparison is strict: the claim's "regardless
of the value of its modifiedAt timestamp" fails at this value. -/
theorem force_refresh_epoch_floor_entry_not_selected :
    selectDatasets "Hospitals" [floorEntry] (computeCutoff true none) = .ok [] ∧
    "Hospitals" ∈ floorEntry.theme ∧
    fromisoformat floorEntry.modified = .ok ⟨0, none⟩ := by
  refine ⟨rfl, ?_, rfl⟩
  decide

/-- C4 (amended): with `forceRefresh = true` the cutoff is the epoch floor,
and whenever the selection completes, a themed catalog entry with parseable
`modifiedAt` is selected iff its wall clock is strictly after the epoch
floor (`datetime.min`); the entry whose timestamp equals the floor itself is
excluded by the strict comparison. -/
theorem force_refresh_selects_iff_after_floor :
    (∀ ledger, computeCutoff true ledger = epochFloor) ∧
    (∀ (data sel : List Dataset) (e : Dataset) (t : Timestamp),
      selectDatasets "Hospitals" data epochFloor = .ok sel →
      e ∈ data → "Hospitals" ∈ e.theme → fromisoformat e.modified = .ok t →
      (e ∈ sel ↔ 0 < t.wall)) := by
  constructor
  · intro _; rfl
  · intro data sel e t hsel he hth ht
    rw [selectDatasets_ok_filter "Hospitals" epochFloor data sel hsel]
    rw [List.mem_filter]
    simp [codeKeeps, hth, ht, pyGt, Timestamp.replaceUTC, epochFloor, he]

/-- C4 (witness): the amended claim applied to the concrete catalog
`[goodEntry]`, whose timestamp is one hour past the floor, together with the
force-refresh cutoff at a concrete ledger. -/
theorem force_refresh_selects_iff_after_floor_witness :
    computeCutoff true none = epochFloor ∧
    (goodEntry ∈ [goodEntry] ↔ (0 : Int) < 3600000000) :=
  ⟨force_refresh_selects_iff_after_floor.1 none,
   force_refresh_selects_iff_after_floor.2 [goodEntry] [goodEntry] goodEntry
     ⟨3600000000, some 0⟩ rfl (List.mem_singleton.mpr rfl) (by decide) rfl⟩

/-- C3: `get_last_run_time` returns the epoch floor when the file does not
exist or has no non-blank line; otherwise it takes the LAST non-blank line,
splits it on `" | "`, and parses field 0, returning the epoch floor when
that parse fails — regardless of what any earlier line contains. -/
theorem get_last_run_time_spec :
    get_last_run_time none = epochFloor ∧
    (∀ ls : List RawLine, ls.filter (fun l => !(lineIsBlank l)) = [] →
      get_last_run_time (some ls) = epochFloor) ∧
    (∀ (ls : List RawLine) (lastLine : RawLine) (t : Timestamp),
      (ls.filter fun l => !(lineIsBlank l)).getLast? = some lastLine →
      lastLine.head? = some (PyStr.iso t) →
      get_last_run_time (some ls) = t) ∧
    (∀ (ls : List RawLine) (lastLine : RawLine),
      (ls.filter fun l => !(lineIsBlank l)).getLast? = some lastLine →
      (∀ t, lastLine.head? ≠ some (PyStr.iso t)) →
      get_last_run_time (some ls) = epochFloor) := by
  refine ⟨rfl, ?_, ?_, ?_⟩
  · intro ls h
    simp only [get_last_run_time]
    rw [h]
    rfl
  · intro ls lastLine t hlast hhead
    simp only [get_last_run_time]
    rw [hlast]
    dsimp only
    rw [hhead]
    rfl
  · intro ls lastLine hlast hne
    simp only [get_last_run_time]
    rw [hlast]
    dsimp only
    cases hhead : lastLine.head? with
    | none => rfl
    | some f =>
      cases f with
      | iso t => exact absurd hhead (hne t)
      | other s => rfl

/-- C3 (witness): a ledger whose last non-blank line starts with a parseable
timestamp yields that timestamp, and a ledger whose last line is junk yields
the epoch floor even though an earlier line holds a parseable timestamp. -/
theorem get_last_run_time_spec_witness :
    get_last_run_time
      (some [[PyStr.other "junk"],
             [PyStr.iso ⟨5, some 0⟩, PyStr.other "m", PyStr.other "c"]]) =
      ⟨5, some 0⟩ ∧
    get_last_run_time
      (some [[PyStr.iso ⟨5, some 0⟩, PyStr.other "m"],
             [PyStr.other "junkline"]]) = epochFloor :=
  ⟨get_last_run_time_spec.2.2.1
     [[PyStr.other "junk"],
      [PyStr.iso ⟨5, some 0⟩, PyStr.other "m", PyStr.other "c"]]
     [PyStr.iso ⟨5, some 0⟩, PyStr.other "m", PyStr.other "c"]
     ⟨5, some 0⟩ (by rfl) rfl,
   get_last_run_time_spec.2.2.2
     [[PyStr.iso ⟨5, some 0⟩, PyStr.other "m"], [PyStr.other "junkline"]]
     [PyStr.other "junkline"] (by rfl)
     (by
       intro t h
       injection h with h2
       exact PyStr.noConfusion h2)⟩

/-- The failure modes of the metadata GET that trigger the fallback read:
network failure, HTTP error status, malformed JSON, or an unexpected
shape. -/
def netFails (net : NetResult) : Prop :=
  net = .httpError ∨ net = .netFail ∨ net = .badJson ∨ net = .ok .other

/-- C9: `load_hospital_data` returns the entry list for a bare list or a
`"dataset"` object, falls back to the local snapshot's content on every
failure mode, and returns the empty list (never raising — it is a total
function) when the fallback is missing or unreadable. -/
theorem load_hospital_data_fallback_spec :
    (∀ (xs : List Dataset) (f : Except Unit JVal),
      load_hospital_data (.ok (.arr xs)) f = .arr xs) ∧
    (∀ (xs : List Dataset) (f : Except Unit JVal),
      load_hospital_data (.ok (.dictDataset (.arr xs))) f = .arr xs) ∧
    (∀ (net : NetResult) (v : JVal), netFails net →
      load_hospital_data net (.ok v) = v) ∧
    (∀ net : NetResult, netFails net →
      load_hospital_data net (.error ()) = .arr []) := by
  refine ⟨fun xs f => rfl, fun xs f => rfl, ?_, ?_⟩
  · rintro net v (rfl | rfl | rfl | rfl) <;> rfl
  · rintro net (rfl | rfl | rfl | rfl) <;> rfl

/-- C9 (witness): the contract applied at concrete inputs — an HTTP error
with a readable fallback returns the fallback's content, malformed JSON with
no fallback returns the empty list, and a well-shaped response returns the
parsed list. -/
theorem load_hospital_data_fallback_spec_witness :
    load_hospital_data .httpError (.ok (JVal.arr [goodEntry])) =
      JVal.arr [goodEntry] ∧
    load_hospital_data .badJson (.error ()) = JVal.arr [] ∧
    load_hospital_data (.ok (.arr [goodEntry])) (.error ()) =
      JVal.arr [goodEntry] :=
  ⟨load_hospital_data_fallback_spec.2.2.1 _ _ (Or.inl rfl),
   load_hospital_data_fallback_spec.2.2.2 _ (Or.inr (Or.inr (Or.inl rfl))),
   load_hospital_data_fallback_spec.1 _ _⟩

lemma digitChar_not_nl (k : Nat) :
    ¬(Nat.digitChar k = '\n' ∨ Nat.digitChar k = '\r') := by
  by_cases hk : k < 16
  · interval_cases k <;> decide
  · obtain ⟨n, rfl⟩ : ∃ n, k = n + 16 := ⟨k - 16, by omega⟩
    have h : Nat.digitChar (n + 16) = '*' := by
      unfold Nat.digitChar
      repeat rw [if_neg (by omega)]
    rw [h]
    decide

lemma toDigitsCore_not_nl :
    ∀ (fuel n : Nat) (acc : List Char),
      (∀ c ∈ acc, ¬(c = '\n' ∨ c = '\r')) →
      ∀ c ∈ Nat.toDigitsCore 10 fuel n acc, ¬(c = '\n' ∨ c = '\r') := by
  intro fuel
  induction fuel with
  | zero =>
    intro n acc hacc c hc
    exact hacc c hc
  | succ fuel ih =>
    intro n acc hacc c hc
    rw [Nat.toDigitsCore] at hc
    split at hc
    · rcases List.mem_cons.mp hc with h | h
      · exact h ▸ digitChar_not_nl _
      · exact hacc c h
    · refine ih (n / 10) (Nat.digitChar (n % 10) :: acc) ?_ c hc
      intro c' hc'
      rcases List.mem_cons.mp hc' with h | h
      · exact h ▸ digitChar_not_nl _
      · exact hacc c' h

lemma toString_nat_not_nl (n : Nat) :
    ∀ c ∈ (toString n).data, ¬(c = '\n' ∨ c = '\r') := by
  intro c hc
  exact toDigitsCore_not_nl (n + 1) n [] (by simp) c hc

lemma nothing_msg_no_nl : containsNlChar "Nothing to update" = false := rfl

lemma downloaded_msg_no_nl (n : Nat) :
    containsNlChar ("Downloaded " ++ toString n ++ " file(s)") = false := by
  unfold containsNlChar
  rw [String.data_append, String.data_append, List.any_append, List.any_append]
  have h2 : (toString n).data.any (fun c => c = '\n' || c = '\r') = false := by
    rw [List.any_eq_false]
    intro c hc
    have := toString_nat_not_nl n c hc
    simp only [Bool.or_eq_true, decide_eq_true_eq]
    tauto
  rw [h2]
  rfl

lemma splitLinesKeepAux_no_nl :
    ∀ (cs acc : List Char), (∀ c ∈ cs, ¬(c = '\n' ∨ c = '\r')) →
      splitLinesKeepAux cs acc false = [String.mk (acc.reverse ++ cs)] := by
  intro cs
  induction cs with
  | nil =>
    intro acc _
    simp [splitLinesKeepAux]
  | cons c rest ih =>
    intro acc h
    have hc := h c (List.mem_cons_self _ _)
    have hn : c ≠ '\n' := fun he => hc (Or.inl he)
    have hr : c ≠ '\r' := fun he => hc (Or.inr he)
    have hrest : ∀ c' ∈ rest, ¬(c' = '\n' ∨ c' = '\r') :=
      fun c' h' => h c' (List.mem_cons_of_mem _ h')
    simp only [splitLinesKeepAux, false_and, if_false, if_neg hr, if_neg hn]
    rw [ih (c :: acc) hrest]
    simp

lemma splitNlMsg_no_nl (msg : String) (h : containsNlChar msg = false) :
    splitNlMsg msg = [msg] := by
  unfold splitNlMsg
  have h' : ∀ c ∈ msg.data, ¬(c = '\n' ∨ c = '\r') := by
    intro c hc
    unfold containsNlChar at h
    rw [List.any_eq_false] at h
    have := h c hc
    simp only [Bool.or_eq_true, decide_eq_true_eq] at this
    tauto
  rw [splitLinesKeepAux_no_nl msg.data [] h']
  simp

lemma update_run_log_no_newline (ledger : RunLog) (now : Timestamp)
    (msg : String) (argv : List String) (h : containsNlChar msg = false) :
    update_run_log ledger now msg argv =
      some (ledgerLines ledger ++ [logLine now msg argv]) := by
  unfold update_run_log appendRecordLines
  rw [splitNlMsg_no_nl msg h]
  rfl

/-- C10 (counterexample): the claim as stated is false of the program — the
message `"a\nb"` contains no `" | "` delimiter, yet `append` writes it as
TWO physical lines (`{ts} | a` and `b | {command}`), so `lastRunTime` reads
the last line `b | {command}`, fails to parse `"b"`, and returns the epoch
floor instead of the timestamp the append wrote. -/
theorem append_newline_fragmentation_counterexample :
    containsRunDelim "a\nb" = false ∧
    update_run_log none ⟨42, some 0⟩ "a\nb" ["p.py"] =
      some [[PyStr.iso ⟨42, some 0⟩, PyStr.other "a"],
            [PyStr.other "b", PyStr.other "python p.py"]] ∧
    get_last_run_time (update_run_log none ⟨42, some 0⟩ "a\nb" ["p.py"]) =
      epochFloor ∧
    (⟨42, some 0⟩ : Timestamp) ≠ epochFloor := by
  refine ⟨rfl, rfl, rfl, by decide⟩

/-- C10 (amended): appending a run entry and then reading the last run time
round-trips: `lastRunTime` after `append` returns exactly the aware UTC
timestamp the append wrote, for any prior ledger state and any message that
contains neither the `" | "` delimiter nor a newline character (a newline
fragments the record and the round trip yields the epoch floor instead, as
the counterexample shows); in particular it never falls back to the epoch
floor when the written timestamp is not the floor itself. -/
theorem append_then_last_run_time_roundtrip (ledger : RunLog) (now : Timestamp)
    (msg : String) (argv : List String) (hAware : now.offset = some 0)
    (hmsg : containsRunDelim msg = false)
    (hnl : containsNlChar msg = false) :
    get_last_run_time (update_run_log ledger now msg argv) = now ∧
    (now ≠ epochFloor →
      get_last_run_time (update_run_log ledger now msg argv) ≠ epochFloor) := by
  have h1 : get_last_run_time (update_run_log ledger now msg argv) = now := by
    rw [update_run_log_no_newline ledger now msg argv hnl]
    simp only [get_last_run_time, logLine, List.filter_append]
    have hf : List.filter (fun l => !lineIsBlank l)
        [[PyStr.iso now, PyStr.other msg, PyStr.other (pyCommand argv)]] =
        [[PyStr.iso now, PyStr.other msg, PyStr.other (pyCommand argv)]] := rfl
    rw [hf, List.getLast?_concat]
    rfl
  refine ⟨h1, fun hne h2 => hne ?_⟩
  rw [← h1, h2]

/-- C10 (witness): the round trip at a concrete ledger, timestamp, message
and argument vector. -/
theorem append_then_last_run_time_roundtrip_witness :
    get_last_run_time
      (update_run_log (some [[PyStr.other "old"]]) ⟨42, some 0⟩
        "Nothing to update" ["hospitals_data_processor.py"]) =
      ⟨42, some 0⟩ :=
  (append_then_last_run_time_roundtrip (some [[PyStr.other "old"]])
    ⟨42, some 0⟩ "Nothing to update" ["hospitals_data_processor.py"]
    rfl rfl rfl).1

lemma mainRun_ledger_append (force : Bool) (argv : List String) (now : Timestamp)
    (http : String → DownloadResult) (norm : String → String) (ledger : RunLog)
    (data : List Dataset) (res : RunResult)
    (h : mainRun force argv now http norm ledger data = .ok res) :
    ∃ msg, res.ledger = some (ledgerLines ledger ++ [logLine now msg argv]) := by
  simp only [mainRun] at h
  cases hsel : selectDatasets "Hospitals" data (computeCutoff force ledger) with
  | error u => rw [hsel] at h; cases h
  | ok sel =>
    rw [hsel] at h
    dsimp only at h
    by_cases hemp : sel.isEmpty
    · rw [if_pos hemp] at h
      cases h
      exact ⟨"Nothing to update",
        update_run_log_no_newline ledger now _ argv nothing_msg_no_nl⟩
    · rw [if_neg hemp] at h
      cases h
      exact ⟨"Downloaded " ++ toString sel.length ++ " file(s)",
        update_run_log_no_newline ledger now _ argv
          (downloaded_msg_no_nl sel.length)⟩

lemma runAll_lines :
    ∀ (runs : List RunInput) (ledger : RunLog) (L : RunLog),
      runAll ledger runs = .ok L →
      ∃ ext : List RawLine,
        ledgerLines L = ledgerLines ledger ++ ext ∧
        ext.length = runs.length ∧
        ext.map firstField = runs.map fun r => PyStr.iso r.now := by
  intro runs
  induction runs with
  | nil =>
    intro ledger L h
    simp only [runAll] at h
    cases h
    exact ⟨[], by simp, rfl, rfl⟩
  | cons r rest ih =>
    intro ledger L h
    simp only [runAll] at h
    cases hm : mainRun r.force r.argv r.now r.http r.normalize ledger r.data with
    | error u => rw [hm] at h; cases h
    | ok res =>
      rw [hm] at h
      dsimp only at h
      obtain ⟨msg, hres⟩ := mainRun_ledger_append _ _ _ _ _ _ _ _ hm
      obtain ⟨ext, hL, hlen, hmap⟩ := ih res.ledger L h
      refine ⟨logLine r.now msg r.argv :: ext, ?_, ?_, ?_⟩
      · rw [hL, hres]
        simp [ledgerLines]
      · simp [hlen]
      · simp [hmap, firstField, logLine]

/-- C6: every completed run appends exactly one line to the ledger, keeping
all existing lines in place (the new content is the old content plus one
line); therefore after N completed runs from a nonexistent ledger the file
holds exactly N lines, whose first fields are exactly the runs' timestamps
in order, and those timestamps are non-decreasing whenever the system clock
readings across the runs were. -/
theorem ledger_monotone_append :
    (∀ (force : Bool) (argv : List String) (now : Timestamp)
       (http : String → DownloadResult) (norm : String → String)
       (ledger : RunLog) (data : List Dataset) (res : RunResult),
      mainRun force argv now http norm ledger data = .ok res →
      ∃ msg, res.ledger = some (ledgerLines ledger ++ [logLine now msg argv])) ∧
    (∀ (runs : List RunInput) (L : RunLog), runAll none runs = .ok L →
      (ledgerLines L).length = runs.length ∧
      (ledgerLines L).map firstField = (runs.map fun r => r.now).map PyStr.iso ∧
      (List.Chain' (fun a b => a.instant ≤ b.instant) (runs.map fun r => r.now) →
        List.Chain'
          (fun a b => ∃ s t, a = PyStr.iso s ∧ b = PyStr.iso t ∧
            s.instant ≤ t.instant)
          ((ledgerLines L).map firstField))) := by
  constructor
  · exact fun force argv now http norm ledger data res h =>
      mainRun_ledger_append force argv now http norm ledger data res h
  · intro runs L h
    obtain ⟨ext, hL, hlen, hmap⟩ := runAll_lines runs none L h
    have hnone : ledgerLines (none : RunLog) = [] := rfl
    rw [hnone, List.nil_append] at hL
    have hmap2 : (ledgerLines L).map firstField = (runs.map fun r => r.now).map PyStr.iso := by
      rw [hL, hmap, List.map_map]
      rfl
    refine ⟨by rw [hL, hlen], hmap2, ?_⟩
    intro hmono
    rw [hmap2, List.chain'_map]
    exact hmono.imp fun a b hab => ⟨a, b, rfl, rfl, hab⟩

/-- Two concrete runs over an empty catalog, ten then twenty microseconds
past the floor. -/
def run1 : RunInput := ⟨true, ["p.py"], ⟨10, some 0⟩, fun _ => .fail, fun s => s, []⟩

/-- Second concrete run, twenty microseconds past the floor. -/
def run2 : RunInput := ⟨false, ["p.py"], ⟨20, some 0⟩, fun _ => .fail, fun s => s, []⟩

/-- C6 (witness): the N-runs property applied to two concrete runs from a
nonexistent ledger. -/
theorem ledger_monotone_append_witness :
    (ledgerLines (some [logLine ⟨10, some 0⟩ "Nothing to update" ["p.py"],
                        logLine ⟨20, some 0⟩ "Nothing to update" ["p.py"]])).length =
      [run1, run2].length ∧
    (ledgerLines (some [logLine ⟨10, some 0⟩ "Nothing to update" ["p.py"],
                        logLine ⟨20, some 0⟩ "Nothing to update" ["p.py"]])).map firstField =
      ([run1, run2].map fun r => r.now).map PyStr.iso ∧
    (List.Chain' (fun a b => a.instant ≤ b.instant) ([run1, run2].map fun r => r.now) →
      List.Chain'
        (fun a b => ∃ s t, a = PyStr.iso s ∧ b = PyStr.iso t ∧
          s.instant ≤ t.instant)
        ((ledgerLines (some [logLine ⟨10, some 0⟩ "Nothing to update" ["p.py"],
                             logLine ⟨20, some 0⟩ "Nothing to update" ["p.py"]])).map
          firstField)) :=
  ledger_monotone_append.2 [run1, run2]
    (some [logLine ⟨10, some 0⟩ "Nothing to update" ["p.py"],
           logLine ⟨20, some 0⟩ "Nothing to update" ["p.py"]]) (by rfl)

/-- C7: when the selection is nonempty, the run's ledger entry records the
count of entries attempted (the length of the selection), for every possible
download outcome; the writes that actually succeeded are the filterMap of
the per-entry pipeline, whose length can be smaller. -/
theorem ledger_records_attempted_count (force : Bool) (argv : List String)
    (now : Timestamp) (http : String → DownloadResult) (norm : String → String)
    (ledger : RunLog) (data : List Dataset) (res : RunResult) (sel : List Dataset)
    (hmain : mainRun force argv now http norm ledger data = .ok res)
    (hsel : selectDatasets "Hospitals" data (computeCutoff force ledger) = .ok sel)
    (hne : sel ≠ []) :
    res.ledger = some (ledgerLines ledger ++
      [logLine now ("Downloaded " ++ toString sel.length ++ " file(s)") argv]) ∧
    res.writes = sel.filterMap (download_and_process http norm) := by
  simp only [mainRun, hsel] at hmain
  rw [if_neg (by simpa using hne)] at hmain
  cases hmain
  exact ⟨update_run_log_no_newline ledger now _ argv
    (downloaded_msg_no_nl sel.length), rfl⟩

/-- Entry `a`, modified one hour past the floor, hosted at `a.csv`. -/
def entA : Dataset :=
  ⟨["Hospitals"], PyStr.iso ⟨3600000000, some 0⟩, [⟨"http://x/a.csv"⟩]⟩

/-- Entry `b`, modified two hours past the floor, hosted at `b.csv`. -/
def entB : Dataset :=
  ⟨["Hospitals"], PyStr.iso ⟨7200000000, some 0⟩, [⟨"http://x/b.csv"⟩]⟩

/-- A download collaborator for which only `a.csv` succeeds. -/
def httpOnlyA : String → DownloadResult :=
  fun u => if u = "http://x/a.csv" then .ok "H\n1" else .fail

/-- C7 (witness): with two selected entries of which only one download
succeeds, the ledger message still says "Downloaded 2 file(s)" while only
one write happened. -/
theorem ledger_records_attempted_count_witness :
    (RunResult.mk [("a.csv", "H\r\n1\r\n")]
        (some [logLine ⟨9000000000, some 0⟩ "Downloaded 2 file(s)" ["p.py"]])).ledger =
      some (ledgerLines none ++
        [logLine ⟨9000000000, some 0⟩
          ("Downloaded " ++ toString [entA, entB].length ++ " file(s)") ["p.py"]]) ∧
    (RunResult.mk [("a.csv", "H\r\n1\r\n")]
        (some [logLine ⟨9000000000, some 0⟩ "Downloaded 2 file(s)" ["p.py"]])).writes =
      [entA, entB].filterMap (download_and_process httpOnlyA fun s => s) :=
  ledger_records_attempted_count true ["p.py"] ⟨9000000000, some 0⟩ httpOnlyA
    (fun s => s) none [entA, entB] _ [entA, entB] (by rfl) (by rfl) (by decide)

/-- Entry `c`, modified three hours past the floor, hosted at `c.csv`. -/
def entC : Dataset :=
  ⟨["Hospitals"], PyStr.iso ⟨10800000000, some 0⟩, [⟨"http://x/c.csv"⟩]⟩

/-- A download collaborator for which only `b.csv` fails (a simulated
HTTP 500). -/
def httpFailB : String → DownloadResult :=
  fun u => if u = "http://x/b.csv" then .fail else .ok "H\n1"

/-- C5: failure of one selected entry's download/parse is isolated — every
other selected entry whose pipeline reaches the write is still written, and
the run still appends its ledger entry. -/
theorem partial_failure_isolation (force : Bool) (argv : List String)
    (now : Timestamp) (http : String → DownloadResult) (norm : String → String)
    (ledger : RunLog) (data : List Dataset) (res : RunResult) (sel : List Dataset)
    (e efail : Dataset) (w : String × String)
    (hmain : mainRun force argv now http norm ledger data = .ok res)
    (hsel : selectDatasets "Hospitals" data (computeCutoff force ledger) = .ok sel)
    (hefail : efail ∈ sel)
    (hfails : download_and_process http norm efail = none)
    (he : e ∈ sel)
    (hw : download_and_process http norm e = some w) :
    w ∈ res.writes ∧
    ∃ msg, res.ledger = some (ledgerLines ledger ++ [logLine now msg argv]) := by
  have hne : sel ≠ [] := List.ne_nil_of_mem he
  simp only [mainRun, hsel] at hmain
  rw [if_neg (by simpa using hne)] at hmain
  cases hmain
  refine ⟨List.mem_filterMap.mpr ⟨e, he, hw⟩, ?_⟩
  exact ⟨"Downloaded " ++ toString sel.length ++ " file(s)",
    update_run_log_no_newline ledger now _ argv
      (downloaded_msg_no_nl sel.length)⟩

/-- C5 (witness): three selected entries where the download of the second
fails; the third is still written and the run appends its ledger line. -/
theorem partial_failure_isolation_witness :
    ("c.csv", "H\r\n1\r\n") ∈
      (RunResult.mk [("a.csv", "H\r\n1\r\n"), ("c.csv", "H\r\n1\r\n")]
        (some [logLine ⟨12000000000, some 0⟩ "Downloaded 3 file(s)" ["p.py"]])).writes ∧
    ∃ msg,
      (RunResult.mk [("a.csv", "H\r\n1\r\n"), ("c.csv", "H\r\n1\r\n")]
        (some [logLine ⟨12000000000, some 0⟩ "Downloaded 3 file(s)" ["p.py"]])).ledger =
      some (ledgerLines none ++ [logLine ⟨12000000000, some 0⟩ msg ["p.py"]]) :=
  partial_failure_isolation true ["p.py"] ⟨12000000000, some 0⟩ httpFailB
    (fun s => s) none [entA, entB, entC] _ [entA, entB, entC] entC entB
    ("c.csv", "H\r\n1\r\n") (by rfl) (by rfl) (by decide) (by rfl) (by decide)
    (by rfl)

/-- A downloaded payload whose data row carries a quoted first field. -/
def quotedPayload : String := "Col A,Col B\n\"a\",b"

/-- Entry hosted at `q.csv`, used against `quotedPayload`. -/
def entQ : Dataset :=
  ⟨["Hospitals"], PyStr.iso ⟨3600000000, some 0⟩, [⟨"http://x/q.csv"⟩]⟩

/-- C8 (counterexample): the data rows of the written file are NOT
byte-identical to payload's data rows: the payload's data line `"a",b` is
re-serialized by `csv.writer` as `a,b` (quote normalization; the line
terminator changes too), even though the parsed field values agree. -/
theorem data_rows_not_byte_identical_counterexample :
    download_and_process (fun _ => .ok quotedPayload) (fun s => s) entQ =
      some ("q.csv", "Col A,Col B\r\na,b\r\n") ∧
    (pySplitlines quotedPayload).drop 1 = ["\"a\",b"] ∧
    (pySplitlines "Col A,Col B\r\na,b\r\n").drop 1 = ["a,b"] ∧
    ("a,b" : String) ≠ "\"a\",b" ∧
    parseCsvLine "a,b" = parseCsvLine "\"a\",b" := by
  refine ⟨rfl, rfl, rfl, by decide, rfl⟩

/-- C8 (amended): processing rewrites only the header row and preserves the
parsed field values of every data row verbatim: the written file is the CSV
re-serialization of the normalized header followed by the unmodified parsed
data rows (so the written data-row BYTES may differ from the downloaded ones
by quote and line-terminator normalization, as the counterexample shows). -/
theorem download_and_process_preserves_data_rows (http : String → DownloadResult)
    (norm : String → String) (e : Dataset) (dist : PyDistribution)
    (content : String) (row0 : List String) (rest : List (List String))
    (t : Timestamp)
    (hdist : e.distribution.head? = some dist)
    (hmod : fromisoformat e.modified = .ok t)
    (hhttp : http dist.downloadURL = .ok content)
    (hrows : csvParse content = row0 :: rest) :
    download_and_process http norm e =
      some (filenameOf dist.downloadURL,
        csvSerialize ((row0.map fun col => norm (pyStrip col)) :: rest)) := by
  simp only [download_and_process, hdist, hmod, hhttp, hrows]

/-- C8 (witness): the amended claim at the concrete quoted payload — the
data row `["a", "b"]` flows to the serializer unmodified. -/
theorem download_and_process_preserves_data_rows_witness :
    download_and_process (fun _ => .ok quotedPayload) (fun s => s) entQ =
      some (filenameOf "http://x/q.csv",
        csvSerialize
          ((["Col A", "Col B"].map fun col => (fun s => s) (pyStrip col)) ::
            [["a", "b"]])) :=
  download_and_process_preserves_data_rows (fun _ => .ok quotedPayload)
    (fun s => s) entQ ⟨"http://x/q.csv"⟩ quotedPayload ["Col A", "Col B"]
    [["a", "b"]] ⟨3600000000, some 0⟩ rfl rfl rfl rfl
